import Mathlib

/-!
Verification development for the mijnrealiteit photoblog build pipeline
(build.js): a shallow embedding of the incremental image-variant
generation and caching subsystem, followed by theorems settling the
specification claims about it.

The embedding models the external world (ImageMagick identify/convert
invocations, fs.statSync, fs.copyFileSync) as an explicit environment of
outcomes, and the build steps as pure functions from that environment and
the in-memory cache document to results plus an effect log (adapter
invocations, file copies, cache saves).  Machine integers in the source
are plain JavaScript numbers holding small non-negative image dimensions
and byte sizes; they are modelled as Nat.  JavaScript exceptions are
modelled with Except, where the error value is the message string.
-/

/-- Error value of a JavaScript exception (the message string). -/
abbrev JsError := String

/-- Intrinsic or probed image dimensions, as parsed from identify output
of the form width x height (build.js lines 333-334). -/
structure Dims where
  width : Nat
  height : Nat
deriving DecidableEq, Repr

/-- Output formats produced per target width (build.js lines 362-416):
the full-fidelity raster (jpg) and the two modern lossy formats. -/
inductive ImgFormat where
  | jpg
  | webp
  | avif
deriving DecidableEq, Repr

/-- The per-width jpg record stored in the cache (build.js lines 379-384):
filename, byte size and probed dimensions. -/
structure JpgRec where
  filename : String
  size : Nat
  width : Nat
  height : Nat
deriving DecidableEq, Repr

/-- The per-width webp/avif record (build.js lines 397-400, 413-416):
filename and byte size only. -/
structure FmtRec where
  filename : String
  size : Nat
deriving DecidableEq, Repr

/-- One value of the variants map: the per-format sub-records for a single
target width.  A missing sub-record models the absence of that key on the
JavaScript object (a partially generated width). -/
structure WidthEntry where
  jpg : Option JpgRec := none
  webp : Option FmtRec := none
  avif : Option FmtRec := none
deriving DecidableEq, Repr

/-- The variants map of a cache entry: JavaScript object keyed by target
width, modelled as an association list with unique keys. -/
abbrev VariantsMap := List (Nat × WidthEntry)

/-- One image cache entry (the dynamic JavaScript object stored at
images[key]).  Optional fields model keys that may be absent: entries
written by updateImageCacheWithVariants (build.js lines 742-750) carry
versioned/original/largestWidth/size/variants, while entries written by
the fallback updateImageCache (lines 721-728) carry width/height/size. -/
structure CacheEntry where
  versioned : Bool := false
  original : Option Dims := none
  largestWidth : Option Nat := none
  width : Option Nat := none
  height : Option Nat := none
  size : Option Nat := none
  lastModified : Option String := none
  processed : Bool := false
  variants : Option VariantsMap := none
deriving DecidableEq, Repr

/-- The persisted cache document (image-cache.json, build.js lines
678-682): version string, last-updated timestamp, and the images map
keyed by the article-scoped cache key. -/
structure CacheDoc where
  version : String
  lastUpdated : String
  images : List (String × CacheEntry)
deriving DecidableEq, Repr

/-- Lookup of a JavaScript object property by string key (images[key]). -/
def lookupKey {α : Type} : List (String × α) → String → Option α
  | [], _ => none
  | (k, v) :: rest, key => if k = key then some v else lookupKey rest key

/-- Assignment of a JavaScript object property (images[key] = entry):
replaces the binding in place when the key exists, otherwise appends. -/
def setKey {α : Type} : List (String × α) → String → α → List (String × α)
  | [], key, v => [(key, v)]
  | (k, w) :: rest, key, v =>
      if k = key then (key, v) :: rest else (k, w) :: setKey rest key v

/-- Lookup of a variants-map value by numeric width key. -/
def lookupW : VariantsMap → Nat → Option WidthEntry
  | [], _ => none
  | (k, v) :: rest, key => if k = key then some v else lookupW rest key

/-- The width keys of a variants map (Object.keys(...).map(parseInt)). -/
def keysOf (m : VariantsMap) : List Nat :=
  m.map Prod.fst

/-- Math.max over the width keys of a variants map (build.js lines 423,
436).  The source applies it only to non-empty maps. -/
def maxKeys (m : VariantsMap) : Nat :=
  (keysOf m).foldr max 0

/-- The width keys sorted ascending, as in keys.sort((a,b) => a-b)
(build.js lines 324, 352, 430, 542). -/
def sortKeysAsc (m : VariantsMap) : List Nat :=
  (keysOf m).insertionSort (· ≤ ·)

/-- JavaScript truthiness of an optional number: undefined and 0 are
falsy. -/
def truthyNat : Option Nat → Option Nat
  | some 0 => none
  | o => o

/-- The JavaScript chain a or-else b or-else d over optional numbers,
where 0 and undefined are falsy (build.js lines 325, 381-383, 399). -/
def jsOr3 (a b : Option Nat) (d : Nat) : Nat :=
  ((truthyNat a).orElse (fun _ => truthyNat b)).getD d

/-- The cache key for one source image (build.js lines 694-696). -/
def getImageCacheKey (articleSlug imageFilename : String) : String :=
  "articles/" ++ articleSlug ++ "/" ++ imageFilename

/-- The configured target-width ladder (build.js line 22). -/
def TARGET_WIDTHS : List Nat := [960, 1100, 1440, 2200]

/-- The widths the generator will produce for a source of intrinsic width
origWidth (build.js lines 336-341): the ladder filtered to widths that do
not exceed the source, or the source width alone when the filter comes up
empty. -/
def widthsToGenerate (origWidth : Nat) : List Nat :=
  let ws := TARGET_WIDTHS.filter (fun w => w ≤ origWidth)
  if ws.isEmpty then [origWidth] else ws

/-- State of the persisted cache file as the build finds it: present and
parsing as valid structured data, absent, or present but failing to read
or parse. -/
inductive CacheFileState where
  | valid (doc : CacheDoc)
  | absent
  | corrupt
deriving DecidableEq, Repr

/-- loadImageCache (build.js lines 668-683): return the parsed document
when the file exists and parses; on a missing file, or when reading or
parsing throws, fall through to a fresh empty document. -/
def loadImageCache (fileState : CacheFileState) (now : String) : CacheDoc :=
  match fileState with
  | CacheFileState.valid doc => doc
  | CacheFileState.absent => { version := "2.0", lastUpdated := now, images := [] }
  | CacheFileState.corrupt => { version := "2.0", lastUpdated := now, images := [] }

/-- saveImageCache (build.js lines 685-692): stamp lastUpdated and write
the document.  The write itself is modelled by the caller counting one
save effect; a failing write is caught and logged in the source, so no
error propagates. -/
def saveImageCache (cache : CacheDoc) (now : String) : CacheDoc :=
  { cache with lastUpdated := now }

/-- JavaScript whitespace as trimmed by String.prototype.trim (on the
characters identify output can contain). -/
def isJsSpace (c : Char) : Bool :=
  c = ' ' || c = '\n' || c = '\t' || c = '\r'

/-- String.prototype.trim: strip leading and trailing whitespace. -/
def trimString (s : String) : String :=
  String.mk (((s.data.dropWhile isJsSpace).reverse.dropWhile isJsSpace).reverse)

/-- Helper for split: cut a character list at every occurrence of the
separator character. -/
def splitCharAux (c : Char) : List Char → List Char → List String
  | [], acc => [String.mk acc.reverse]
  | d :: rest, acc =>
      if d = c then String.mk acc.reverse :: splitCharAux c rest []
      else splitCharAux c rest (d :: acc)

/-- String.prototype.split with a one-character separator, as used on
identify output (split on the letter x). -/
def splitOnChar (c : Char) (s : String) : List String :=
  splitCharAux c s.data []

/-- Digit-string conversion: some value for a non-empty all-digit list,
none otherwise. -/
def digitsToNat (l : List Char) : Option Nat :=
  if l ≠ [] ∧ l.all Char.isDigit then
    some (l.foldl (fun n c => n * 10 + (c.toNat - 48)) 0)
  else none

/-- JavaScript Number() on the substrings identify emits: an empty or
all-whitespace string converts to 0, a digit string to its value, and
anything else to NaN (modelled as none). -/
def jsNumber (s : String) : Option Nat :=
  if trimString s = "" then some 0 else digitsToNat (trimString s).data

/-- Result record of getImageDimensions.  A none component models NaN
(the substring did not convert to a number) or undefined (identify output
had no second x-separated part). -/
structure JsDims where
  width : Option Nat
  height : Option Nat
deriving DecidableEq, Repr

/-- getImageDimensions (build.js lines 656-665): run identify, split its
trimmed output on the letter x and convert both parts with Number(); if
the identify invocation itself throws, return width 0, height 0. -/
def getImageDimensions (identifyResult : Except JsError String) : JsDims :=
  match identifyResult with
  | Except.ok stdout =>
      let parts := (splitOnChar 'x' (trimString stdout)).map jsNumber
      { width := (parts.get? 0).getD none, height := (parts.get? 1).getD none }
  | Except.error _ => { width := some 0, height := some 0 }

/-- updateImageCache (build.js lines 714-736), the fallback-path cache
write: spread the existing entry (or an empty object) and shallow-assign
width, height, size, lastModified and processed, then persist. -/
def updateImageCache (articleSlug imageFilename : String) (dimensions : Dims)
    (fileSize : Nat) (now : String) (cache : CacheDoc) : CacheDoc :=
  let cacheKey := getImageCacheKey articleSlug imageFilename
  let old := (lookupKey cache.images cacheKey).getD {}
  let entry := { old with
    width := some dimensions.width,
    height := some dimensions.height,
    size := some fileSize,
    lastModified := some now,
    processed := true }
  saveImageCache { cache with images := setKey cache.images cacheKey entry } now

/-- updateImageCacheWithVariants (build.js lines 738-758): store a brand
new object literal at the cache key - versioned, original, largestWidth,
size, lastModified, processed and the given variants map - then persist.
The previous entry at the key is not consulted. -/
def updateImageCacheWithVariants (articleSlug imageFilename : String)
    (originalDimensions : Dims) (variants : VariantsMap)
    (largestWidth largestSize : Nat) (now : String) (cache : CacheDoc) : CacheDoc :=
  let cacheKey := getImageCacheKey articleSlug imageFilename
  let entry : CacheEntry := {
    versioned := true,
    original := some originalDimensions,
    largestWidth := some largestWidth,
    size := some largestSize,
    lastModified := some now,
    processed := true,
    variants := some variants }
  saveImageCache { cache with images := setKey cache.images cacheKey entry } now

/-- The external-world outcomes one generateImageVariants invocation can
observe.  identify is the outcome of the probe of the source file (build.js
line 333), already parsed to dimensions; convert gives the outcome of the
convert invocation for each width/format pair; statGen and probeGen give
fs.statSync size and getImageDimensions result for a generated file;
statFallback and probeFallback give the same for the verbatim copy made in
the catch block.  probe results are modelled as plain dimensions (the NaN
corner of getImageDimensions is treated separately at the string level).
fs.copyFileSync is modelled as succeeding. -/
structure Env where
  forceOverwrite : Bool
  identify : Except JsError Dims
  convert : Nat → ImgFormat → Except JsError Unit
  statGen : Nat → ImgFormat → Option Nat
  probeGen : Nat → Dims
  statFallback : Option Nat
  probeFallback : Dims
  now : String

/-- The chain cached and cached.variants and cached.variants[width]
(build.js lines 365, 381-383, 389, 399, 405, 415). -/
def cachedWidthEntry (cached : Option CacheEntry) (w : Nat) : Option WidthEntry :=
  match cached with
  | none => none
  | some c =>
      match c.variants with
      | none => none
      | some vm => lookupW vm w

/-- The chain ending in .jpg on a cached width entry. -/
def cachedJpg (cached : Option CacheEntry) (w : Nat) : Option JpgRec :=
  (cachedWidthEntry cached w).bind WidthEntry.jpg

/-- The chain ending in .webp on a cached width entry. -/
def cachedWebp (cached : Option CacheEntry) (w : Nat) : Option FmtRec :=
  (cachedWidthEntry cached w).bind WidthEntry.webp

/-- The chain ending in .avif on a cached width entry. -/
def cachedAvif (cached : Option CacheEntry) (w : Nat) : Option FmtRec :=
  (cachedWidthEntry cached w).bind WidthEntry.avif

/-- path.parse(imageFileName).name (build.js line 343): the filename
without its final extension. -/
def baseNameOf (imageFileName : String) : String :=
  let parts := imageFileName.splitOn "."
  if parts.length ≤ 1 then imageFileName
  else String.intercalate "." parts.dropLast

/-- The fast-path guard condition of build.js line 322: the entry exists,
has a variants key, and that object has at least one own key. -/
def hasNonEmptyVariants : Option CacheEntry → Bool
  | none => false
  | some c =>
      match c.variants with
      | none => false
      | some vm => decide (0 < vm.length)

/-- The cacheHasAllTargets predicate of build.js lines 347-348: every
width to generate already has jpg, webp and avif sub-records in the cached
variants map. -/
def cachedComplete (cached : Option CacheEntry) (ws : List Nat) : Bool :=
  match cached with
  | none => false
  | some c =>
      match c.variants with
      | none => false
      | some vm => ws.all (fun w =>
          match lookupW vm w with
          | some we => we.jpg.isSome && we.webp.isSome && we.avif.isSome
          | none => false)

/-- Return value of generateImageVariants (build.js lines 327, 355, 426,
433, 438, 448). -/
structure GenResult where
  variants : VariantsMap
  largestWidth : Nat
  largestJpgFilename : String
deriving DecidableEq, Repr

/-- The fast-path return computation of build.js lines 324-327: sort the
cached width keys ascending, take the last as largestWidth (falling back
to original.width or 0 for an empty key list), and read
variants[largestWidth].jpg.filename - a property access that throws when
the jpg sub-record is absent. -/
def fastPathResult (cached : Option CacheEntry) (imageFileName : String) : Except JsError GenResult :=
  match cached with
  | some c =>
      match c.variants with
      | some vm =>
          let widths := sortKeysAsc vm
          match widths.getLast? with
          | some largestWidth =>
              match (lookupW vm largestWidth).bind WidthEntry.jpg with
              | some j => Except.ok { variants := vm, largestWidth := largestWidth, largestJpgFilename := j.filename }
              | none => Except.error "TypeError"
          | none => Except.ok { variants := vm, largestWidth := jsOr3 (c.original.map Dims.width) none 0, largestJpgFilename := imageFileName }
      | none => Except.error "TypeError"
  | none => Except.error "TypeError"

/-- The cached-variants return computation shared by build.js lines
352-355 and 430-433: like the fast path but with origWidth as the
empty-key-list fallback for largestWidth. -/
def cachedReturn (vm : VariantsMap) (imageFileName : String) (origWidth : Nat) : Except JsError GenResult :=
  let widths := sortKeysAsc vm
  match widths.getLast? with
  | some largestWidth =>
      match (lookupW vm largestWidth).bind WidthEntry.jpg with
      | some j => Except.ok { variants := vm, largestWidth := largestWidth, largestJpgFilename := j.filename }
      | none => Except.error "TypeError"
  | none => Except.ok { variants := vm, largestWidth := origWidth, largestJpgFilename := imageFileName }

/-- The no-cache return computation of build.js lines 435-438: largest
key of the freshly computed variants map, with a guarded jpg filename
lookup that falls back to the original filename. -/
def computedReturn (vm : VariantsMap) (imageFileName : String) : GenResult :=
  let largestWidth := maxKeys vm
  let largestJpgFilename :=
    match (lookupW vm largestWidth).bind WidthEntry.jpg with
    | some j => j.filename
    | none => imageFileName
  { variants := vm, largestWidth := largestWidth, largestJpgFilename := largestJpgFilename }

/-- The jpg sub-record assembled at one width (build.js lines 371-384):
sizes and dimensions from fs.statSync and the probe of the generated
file, falling back to cached values and then to literals through
JavaScript or-chains.  When statSync throws, both stat and probe results
are null. -/
def genJpgRec (env : Env) (cached : Option CacheEntry) (baseName : String) (w : Nat) : JpgRec :=
  let cj := cachedJpg cached w
  let jpgStats := env.statGen w ImgFormat.jpg
  let jpgDims := if jpgStats.isSome then some (env.probeGen w) else none
  { filename := baseName ++ "-" ++ toString w ++ ".jpg",
    size := jsOr3 jpgStats (cj.map JpgRec.size) 0,
    width := jsOr3 (jpgDims.map Dims.width) (cj.map JpgRec.width) w,
    height := jsOr3 (jpgDims.map Dims.height) (cj.map JpgRec.height) 0 }

/-- The webp sub-record assembled at one width (build.js lines 395-400). -/
def genWebpRec (env : Env) (cached : Option CacheEntry) (baseName : String) (w : Nat) : FmtRec :=
  { filename := baseName ++ "-" ++ toString w ++ ".webp",
    size := jsOr3 (env.statGen w ImgFormat.webp) ((cachedWebp cached w).map FmtRec.size) 0 }

/-- The avif sub-record assembled at one width (build.js lines 411-416). -/
def genAvifRec (env : Env) (cached : Option CacheEntry) (baseName : String) (w : Nat) : FmtRec :=
  { filename := baseName ++ "-" ++ toString w ++ ".avif",
    size := jsOr3 (env.statGen w ImgFormat.avif) ((cachedAvif cached w).map FmtRec.size) 0 }

/-- The width entry the loop body stores at variants[width] when no
convert throws: all three sub-records present. -/
def genWidthEntry (env : Env) (cached : Option CacheEntry) (baseName : String) (w : Nat) : WidthEntry :=
  { jpg := some (genJpgRec env cached baseName w),
    webp := some (genWebpRec env cached baseName w),
    avif := some (genAvifRec env cached baseName w) }

/-- The variants map a loop over the given widths assembles when no
convert throws. -/
def genVariants (env : Env) (cached : Option CacheEntry) (baseName : String) (ws : List Nat) : VariantsMap :=
  ws.map (fun w => (w, genWidthEntry env cached baseName w))

/-- The loop body for one target width (build.js lines 359-417): for each
of jpg, webp, avif, invoke convert unless skipped for a cached
sub-record, then assemble the sub-records.  Returns the assembled width
entry (or the first convert error), the convert invocations made (a
failed invocation is still an invocation), and the anyGenerated
contribution accumulated before returning. -/
def processWidth (env : Env) (cached : Option CacheEntry) (baseName : String) (w : Nat) :
    Except JsError WidthEntry × List (Nat × ImgFormat) × Bool :=
  let needJpg := env.forceOverwrite || (cachedJpg cached w).isNone
  let jpgCallList : List (Nat × ImgFormat) := if needJpg then [(w, ImgFormat.jpg)] else []
  match (if needJpg then env.convert w ImgFormat.jpg else Except.ok ()) with
  | Except.error e => (Except.error e, jpgCallList, false)
  | Except.ok _ =>
      let needWebp := env.forceOverwrite || (cachedWebp cached w).isNone
      let webpCallList : List (Nat × ImgFormat) := if needWebp then [(w, ImgFormat.webp)] else []
      match (if needWebp then env.convert w ImgFormat.webp else Except.ok ()) with
      | Except.error e => (Except.error e, jpgCallList ++ webpCallList, needJpg)
      | Except.ok _ =>
          let needAvif := env.forceOverwrite || (cachedAvif cached w).isNone
          let avifCallList : List (Nat × ImgFormat) := if needAvif then [(w, ImgFormat.avif)] else []
          match (if needAvif then env.convert w ImgFormat.avif else Except.ok ()) with
          | Except.error e => (Except.error e, jpgCallList ++ webpCallList ++ avifCallList, needJpg || needWebp)
          | Except.ok _ =>
              (Except.ok (genWidthEntry env cached baseName w),
               jpgCallList ++ webpCallList ++ avifCallList,
               needJpg || needWebp || needAvif)

/-- The for-loop of build.js lines 359-417 over the widths to generate:
threads the variants map under construction, the convert invocations in
order, and the anyGenerated flag, stopping at the first convert error. -/
def processWidths (env : Env) (cached : Option CacheEntry) (baseName : String) :
    List Nat → Except JsError VariantsMap × List (Nat × ImgFormat) × Bool
  | [] => (Except.ok [], [], false)
  | w :: ws =>
      match processWidth env cached baseName w with
      | (Except.error e, cs, g) => (Except.error e, cs, g)
      | (Except.ok we, cs, g) =>
          match processWidths env cached baseName ws with
          | (Except.ok vm, cs2, g2) => (Except.ok ((w, we) :: vm), cs ++ cs2, g || g2)
          | (Except.error e, cs2, g2) => (Except.error e, cs ++ cs2, g || g2)

/-- Intermediate outcome of the try block of generateImageVariants. -/
structure TryOut where
  result : Except JsError GenResult
  adapterCalls : List (Nat × ImgFormat)
  identifyCalls : Nat
  cacheAfter : CacheDoc
  cacheSaves : Nat

/-- The try block of generateImageVariants (build.js lines 317-439): the
fast path on a non-empty cached variants map; otherwise identify the
source, compute the widths to generate, take the cacheHasAllTargets
shortcut when it applies, run the per-width loop, and either write the
cache through updateImageCacheWithVariants (when anything was generated)
or return cached or computed data without a cache write. -/
def genTry (env : Env) (articleSlug imageFileName : String) (cache : CacheDoc)
    (cached : Option CacheEntry) : TryOut :=
  if !env.forceOverwrite && hasNonEmptyVariants cached then
    { result := fastPathResult cached imageFileName, adapterCalls := [], identifyCalls := 0,
      cacheAfter := cache, cacheSaves := 0 }
  else
    match env.identify with
    | Except.error e =>
        { result := Except.error e, adapterCalls := [], identifyCalls := 1,
          cacheAfter := cache, cacheSaves := 0 }
    | Except.ok orig =>
        let ws := widthsToGenerate orig.width
        let baseName := baseNameOf imageFileName
        if !env.forceOverwrite && cachedComplete cached ws then
          { result := (match cached with
              | some c =>
                  match c.variants with
                  | some cvm => cachedReturn cvm imageFileName orig.width
                  | none => Except.error "TypeError"
              | none => Except.error "TypeError"),
            adapterCalls := [], identifyCalls := 1, cacheAfter := cache, cacheSaves := 0 }
        else
          match processWidths env cached baseName ws with
          | (Except.error e, cs, _) =>
              { result := Except.error e, adapterCalls := cs, identifyCalls := 1,
                cacheAfter := cache, cacheSaves := 0 }
          | (Except.ok vm, cs, anyGenerated) =>
              if anyGenerated then
                match (lookupW vm (maxKeys vm)).bind WidthEntry.jpg with
                | none =>
                    { result := Except.error "TypeError", adapterCalls := cs, identifyCalls := 1,
                      cacheAfter := cache, cacheSaves := 0 }
                | some largestJpg =>
                    let res : GenResult :=
                      { variants := vm, largestWidth := maxKeys vm, largestJpgFilename := largestJpg.filename }
                    { result := Except.ok res,
                      adapterCalls := cs, identifyCalls := 1,
                      cacheAfter := updateImageCacheWithVariants articleSlug imageFileName orig vm
                        (maxKeys vm) largestJpg.size env.now cache,
                      cacheSaves := 1 }
              else
                match cached with
                | some c =>
                    (match c.variants with
                     | some cvm =>
                         { result := cachedReturn cvm imageFileName orig.width, adapterCalls := cs,
                           identifyCalls := 1, cacheAfter := cache, cacheSaves := 0 }
                     | none =>
                         { result := Except.ok (computedReturn vm imageFileName), adapterCalls := cs,
                           identifyCalls := 1, cacheAfter := cache, cacheSaves := 0 })
                | none =>
                    { result := Except.ok (computedReturn vm imageFileName), adapterCalls := cs,
                      identifyCalls := 1, cacheAfter := cache, cacheSaves := 0 }

/-- Full outcome of one generateImageVariants invocation: the returned
value (or an exception that escaped the catch block), the adapter convert
invocations, the number of identify invocations on the source, the
verbatim copies written, the in-memory cache afterwards, and how many
times the cache document was persisted. -/
structure GenOutcome where
  result : Except JsError GenResult
  adapterCalls : List (Nat × ImgFormat)
  identifyCalls : Nat
  copies : List String
  cacheAfter : CacheDoc
  cacheSaves : Nat
deriving Repr

/-- generateImageVariants (build.js lines 316-450): run the try block;
on any exception fall into the catch block, which copies the source
verbatim to the destination, stats and probes the copy, records the entry
through updateImageCache and returns empty variants with the probed width.
A statSync throw inside the catch block escapes the function. -/
def generateImageVariants (env : Env) (sourcePath destDir articleSlug imageFileName : String)
    (cache : CacheDoc) : GenOutcome :=
  let cached := lookupKey cache.images (getImageCacheKey articleSlug imageFileName)
  let t := genTry env articleSlug imageFileName cache cached
  match t.result with
  | Except.ok r =>
      { result := Except.ok r, adapterCalls := t.adapterCalls, identifyCalls := t.identifyCalls,
        copies := [], cacheAfter := t.cacheAfter, cacheSaves := t.cacheSaves }
  | Except.error _ =>
      let destOriginal := destDir ++ "/" ++ imageFileName
      match env.statFallback with
      | none =>
          { result := Except.error "statSync threw in the catch block",
            adapterCalls := t.adapterCalls, identifyCalls := t.identifyCalls,
            copies := [destOriginal], cacheAfter := cache, cacheSaves := 0 }
      | some sz =>
          let dims := env.probeFallback
          let res : GenResult :=
            { variants := [], largestWidth := dims.width, largestJpgFilename := imageFileName }
          { result := Except.ok res,
            adapterCalls := t.adapterCalls, identifyCalls := t.identifyCalls,
            copies := [destOriginal],
            cacheAfter := updateImageCache articleSlug imageFileName dims sz env.now cache,
            cacheSaves := 1 }

/-- path.basename (build.js line 532): the final path segment. -/
def pathBasename (p : String) : String :=
  ((splitOnChar '/' p).getLast?).getD p

/-- A word character in the sense of the regex word-boundary assertion:
letters, digits and the underscore. -/
def isWordChar (c : Char) : Bool :=
  ('a' ≤ c && c ≤ 'z') || ('A' ≤ c && c ≤ 'Z') || ('0' ≤ c && c ≤ '9') || c = '_'

/-- Whether the first list is an initial segment of the second. -/
def startsWithChars : List Char → List Char → Bool
  | [], _ => true
  | _ :: _, [] => false
  | p :: ps, c :: cs => p = c && startsWithChars ps cs

/-- Scan for the pattern loading= at a word boundary: the flag carries
whether the current position follows the start of the string or a
non-word character. -/
def hasLoadingAux : Bool → List Char → Bool
  | _, [] => false
  | atBoundary, c :: cs =>
      (atBoundary && startsWithChars ("loading=".data) (c :: cs)) ||
      hasLoadingAux (!isWordChar c) cs

/-- The test of the regex word-boundary-loading= pattern against the
matched tag (build.js line 538). -/
def hasLoadingAttr (m : String) : Bool :=
  hasLoadingAux true m.data

/-- Whether a character list starts with a case-insensitive spelling of
the four characters of an opening img tag. -/
def matchesImgAt : List Char → Bool
  | '<' :: i :: c3 :: c4 :: _ =>
      (i = 'i' || i = 'I') && (c3 = 'm' || c3 = 'M') && (c4 = 'g' || c4 = 'G')
  | _ => false

/-- Replace the first case-insensitive occurrence of the opening img tag
characters with the lowercase spelling, leaving everything else alone. -/
def replaceFirstImg : List Char → List Char
  | [] => []
  | c :: cs =>
      if matchesImgAt (c :: cs) then '<' :: 'i' :: 'm' :: 'g' :: cs.drop 3
      else c :: replaceFirstImg cs

/-- The call m.replace of the case-insensitive img pattern with the
lowercase literal (build.js line 539): a single replacement of the first
match. -/
def replaceImgLower (m : String) : String :=
  String.mk (replaceFirstImg m.data)

/-- Property access variants[w][fmt].filename used by makeSrcSet
(build.js line 543): throws when the format sub-record is absent. -/
def fmtFilename (we : WidthEntry) (fmt : ImgFormat) : Except JsError String :=
  match fmt with
  | ImgFormat.jpg =>
      match we.jpg with
      | some j => Except.ok j.filename
      | none => Except.error "TypeError"
  | ImgFormat.webp =>
      match we.webp with
      | some r => Except.ok r.filename
      | none => Except.error "TypeError"
  | ImgFormat.avif =>
      match we.avif with
      | some r => Except.ok r.filename
      | none => Except.error "TypeError"

/-- makeSrcSet (build.js line 543): for each width in ascending order,
the variant filename followed by a width descriptor, joined with commas. -/
def makeSrcSet (vm : VariantsMap) (widths : List Nat) (fmt : ImgFormat) : Except JsError String :=
  (widths.mapM (fun w =>
    match lookupW vm w with
    | none => Except.error "TypeError"
    | some we => (fmtFilename we fmt).map (fun f => f ++ " " ++ toString w ++ "w"))).map
    (String.intercalate ", ")

/-- The picture-markup construction of build.js lines 542-559, applied to
a cached variants map: sorted widths, the largest jpg filename (a throwing
property access), the sizes attribute capped by the intrinsic maximum
width, and the picture element with avif, webp and jpg source sets. -/
def replaceWithPicture (vm : VariantsMap) (altText : String) : Except JsError String :=
  let widths := sortKeysAsc vm
  let maxW := widths.foldr max 0
  match (lookupW vm maxW).bind WidthEntry.jpg with
  | none => Except.error "TypeError"
  | some largestJpg =>
      let sizesAttr := "(max-width: 768px) 100vw, (max-width: 1024px) " ++ toString (min 960 maxW)
        ++ "px, (max-width: 1440px) " ++ toString (min 1100 maxW) ++ "px, " ++ toString (min 1440 maxW) ++ "px"
      match makeSrcSet vm widths ImgFormat.avif with
      | Except.error e => Except.error e
      | Except.ok avifSet =>
          match makeSrcSet vm widths ImgFormat.webp with
          | Except.error e => Except.error e
          | Except.ok webpSet =>
              match makeSrcSet vm widths ImgFormat.jpg with
              | Except.error e => Except.error e
              | Except.ok jpgSet =>
                  Except.ok ("\n<picture>\n  <source srcset=\"" ++ avifSet
                    ++ "\" type=\"image/avif\" sizes=\"" ++ sizesAttr
                    ++ "\">\n  <source srcset=\"" ++ webpSet
                    ++ "\" type=\"image/webp\" sizes=\"" ++ sizesAttr
                    ++ "\">\n  <img src=\"" ++ largestJpg.filename
                    ++ "\" srcset=\"" ++ jpgSet
                    ++ "\" sizes=\"" ++ sizesAttr
                    ++ "\" alt=\"" ++ altText ++ "\">\n</picture>")

/-- The per-match replacer of replaceImagesWithPicture (build.js lines
527-561), applied to one matched img tag m with source attribute src:
strip any query string, normalise to the basename, look the image up in
the cache; when there is no entry or the entry has no variants key,
return m verbatim if it carries a loading= attribute and otherwise m with
its first case-insensitive opening img spelling lowercased (build.js
lines 538-539); otherwise build the picture markup. -/
def replaceImgTag (cache : CacheDoc) (articleSlug : String) (m src altText : String) :
    Except JsError String :=
  let imageFilename := (splitOnChar '?' src).headD src
  let lookupFilename := pathBasename imageFilename
  let cached := lookupKey cache.images (getImageCacheKey articleSlug lookupFilename)
  match cached with
  | none => Except.ok (if hasLoadingAttr m then m else replaceImgLower m)
  | some c =>
      match c.variants with
      | none => Except.ok (if hasLoadingAttr m then m else replaceImgLower m)
      | some vm => replaceWithPicture vm altText

/-- One image of the source tree as buildArticles processes it (build.js
lines 591-597): its location plus the external-world outcomes its
generateImageVariants invocation observes on the first and on the second
build run. -/
structure ImageJob where
  env1 : Env
  env2 : Env
  sourcePath : String
  destDir : String
  slug : String
  fileName : String

/-- The image loop of buildArticles (build.js lines 593-597) over a whole
source tree, threading the in-memory cache document through consecutive
generateImageVariants invocations.  useSnd selects the second-run
environments. -/
def runPipeline (useSnd : Bool) : List ImageJob → CacheDoc → List GenOutcome × CacheDoc
  | [], cache => ([], cache)
  | j :: rest, cache =>
      let env := if useSnd then j.env2 else j.env1
      let out := generateImageVariants env j.sourcePath j.destDir j.slug j.fileName cache
      let next := runPipeline useSnd rest out.cacheAfter
      (out :: next.1, next.2)

/-- The full convert-invocation list for a width list: jpg, webp, avif per
width, widths in order.  Specification vocabulary for counting adapter
calls. -/
def fullCalls : List Nat → List (Nat × ImgFormat)
  | [] => []
  | w :: ws => (w, ImgFormat.jpg) :: (w, ImgFormat.webp) :: (w, ImgFormat.avif) :: fullCalls ws

/-- A variants map as written by a fully successful generation run: at
least one width, and every stored width entry carries a jpg sub-record. -/
def goodVariants (vm : VariantsMap) : Prop :=
  vm ≠ [] ∧ ∀ w we, lookupW vm w = some we → we.jpg.isSome

/-- A cache entry whose variants map satisfies goodVariants. -/
def goodEntry (c : CacheEntry) : Prop :=
  ∃ vm, c.variants = some vm ∧ goodVariants vm

/-- The key of the cache entry an image job reads and writes. -/
def jobKey (j : ImageJob) : String :=
  getImageCacheKey j.slug j.fileName

/-- The exact entry updateImageCacheWithVariants stores: the object
literal of build.js lines 742-750.  Specification vocabulary for the
replacement semantics of the variant-cache put. -/
def putEntry (originalDimensions : Dims) (variants : VariantsMap)
    (largestWidth largestSize : Nat) (now : String) : CacheEntry :=
  { versioned := true,
    original := some originalDimensions,
    largestWidth := some largestWidth,
    size := some largestSize,
    lastModified := some now,
    processed := true,
    variants := some variants }

/-- The entry updateImageCache stores on top of an existing entry (or the
empty object): build.js lines 721-728.  Specification vocabulary for the
fallback-path cache record. -/
def fallbackEntry (old : CacheEntry) (dimensions : Dims) (fileSize : Nat) (now : String) : CacheEntry :=
  { old with
    width := some dimensions.width,
    height := some dimensions.height,
    size := some fileSize,
    lastModified := some now,
    processed := true }

/-- An empty persisted cache document, as a fresh build starts with. -/
def emptyCacheDoc : CacheDoc :=
  { version := "2.0", lastUpdated := "T0", images := [] }

/-- A healthy environment without force-overwrite: identify reports a
3000 x 2000 source, every convert succeeds, generated files stat at 100
bytes, and the catch-block copy would stat at 50 bytes. -/
def envNoForce : Env :=
  { forceOverwrite := false,
    identify := Except.ok ⟨3000, 2000⟩,
    convert := fun _ _ => Except.ok (),
    statGen := fun _ _ => some 100,
    probeGen := fun w => ⟨w, 10⟩,
    statFallback := some 50,
    probeFallback := ⟨0, 0⟩,
    now := "T1" }

/-- envNoForce with the force-overwrite flag set. -/
def envForce : Env :=
  { envNoForce with forceOverwrite := true }

/-- An environment in which the conversion adapter raises on every call:
identify rejects and every convert rejects.  The probe of the verbatim
copy accordingly reports 0 x 0. -/
def envAllFail : Env :=
  { envNoForce with
    identify := Except.error "spawn identify ENOENT",
    convert := fun _ _ => Except.error "spawn convert ENOENT" }

/-- A width entry holding jpg and webp records but no avif record: the
partial state left behind when the avif conversion failed after jpg and
webp succeeded. -/
def partialWidth960 : WidthEntry :=
  { jpg := some ⟨"photo-960.jpg", 100, 960, 640⟩,
    webp := some ⟨"photo-960.webp", 80⟩,
    avif := none }

/-- A cache entry whose variants map has the single, incomplete width
960. -/
def partialCacheEntry : CacheEntry :=
  { processed := true, variants := some [(960, partialWidth960)] }

/-- A cache document holding the incomplete entry for articles/a/photo.jpg. -/
def partialCacheDoc : CacheDoc :=
  { version := "2.0", lastUpdated := "T0",
    images := [(getImageCacheKey "a" "photo.jpg", partialCacheEntry)] }

/-- A complete width entry for width 960 of pic.jpg. -/
def completeWidth960 : WidthEntry :=
  { jpg := some ⟨"pic-960.jpg", 10, 960, 6⟩,
    webp := some ⟨"pic-960.webp", 8⟩,
    avif := some ⟨"pic-960.avif", 7⟩ }

/-- A cache entry reporting a complete variant set. -/
def completeCacheEntry : CacheEntry :=
  { versioned := true, processed := true, variants := some [(960, completeWidth960)] }

/-- A cache document holding the complete entry for articles/a/pic.jpg. -/
def completeCacheDoc : CacheDoc :=
  { version := "2.0", lastUpdated := "T0",
    images := [(getImageCacheKey "a" "pic.jpg", completeCacheEntry)] }

/-- A complete width entry for width 960 of p.jpg. -/
def mixedWidth960 : WidthEntry :=
  { jpg := some ⟨"p-960.jpg", 1, 960, 1⟩,
    webp := some ⟨"p-960.webp", 1⟩,
    avif := some ⟨"p-960.avif", 1⟩ }

/-- A width entry for width 1100 holding only a webp record - in
particular no jpg record. -/
def mixedWidth1100 : WidthEntry :=
  { webp := some ⟨"p-1100.webp", 1⟩ }

/-- A cache entry whose largest width (1100) lacks the jpg sub-record. -/
def noJpgCacheEntry : CacheEntry :=
  { processed := true, variants := some [(960, mixedWidth960), (1100, mixedWidth1100)] }

/-- A cache document holding the jpg-less-largest-width entry for
articles/a/p.jpg. -/
def noJpgCacheDoc : CacheDoc :=
  { version := "2.0", lastUpdated := "T0",
    images := [(getImageCacheKey "a" "p.jpg", noJpgCacheEntry)] }

/-- A cache entry carrying a top-level width field and a complete width
960, as material for exercising the put semantics. -/
def oldCacheEntryX : CacheEntry :=
  { width := some 123, processed := true,
    variants := some [(960, { jpg := some ⟨"x-960.jpg", 1, 960, 1⟩,
                              webp := some ⟨"x-960.webp", 1⟩,
                              avif := some ⟨"x-960.avif", 1⟩ })] }

/-- A cache document holding oldCacheEntryX at articles/a/x.jpg. -/
def oldCacheDocX : CacheDoc :=
  { version := "2.0", lastUpdated := "T0",
    images := [(getImageCacheKey "a" "x.jpg", oldCacheEntryX)] }

/-- New variant data for width 1100 only, to put on top of
oldCacheEntryX. -/
def newVariants1100 : VariantsMap :=
  [(1100, { jpg := some ⟨"x-1100.jpg", 2, 1100, 2⟩ })]

/-- A one-image source tree for the pipeline-level idempotence run:
healthy adapter on both runs, no force-overwrite. -/
def jobA : ImageJob :=
  { env1 := envNoForce, env2 := envNoForce,
    sourcePath := "raw_articles/a/photo.jpg", destDir := "build/articles/a",
    slug := "a", fileName := "photo.jpg" }

theorem lookupKey_setKey_self {α : Type} (m : List (String × α)) (k : String) (v : α) :
    lookupKey (setKey m k v) k = some v := by
  induction m with
  | nil => simp [setKey, lookupKey]
  | cons p rest ih =>
      rcases p with ⟨k1, v1⟩
      by_cases h : k1 = k
      · simp [setKey, h, lookupKey]
      · simp [setKey, h, lookupKey, ih]

theorem lookupKey_setKey_ne {α : Type} (m : List (String × α)) (k k2 : String) (v : α)
    (h : k2 ≠ k) :
    lookupKey (setKey m k v) k2 = lookupKey m k2 := by
  have h2 : ¬k = k2 := fun he => h (Eq.symm he)
  induction m with
  | nil => simp [setKey, lookupKey, h2]
  | cons p rest ih =>
      rcases p with ⟨k1, v1⟩
      by_cases h1 : k1 = k
      · subst h1
        simp [setKey, lookupKey, h2]
      · simp [setKey, h1, lookupKey, ih]

theorem mem_of_getLast_opt {α : Type} (l : List α) (a : α) (h : l.getLast? = some a) :
    a ∈ l := by
  have hne : l ≠ [] := by
    intro he
    rw [he] at h
    simp at h
  rw [List.getLast?_eq_getLast l hne] at h
  have hm := List.getLast_mem hne
  rwa [Option.some_inj.mp h] at hm

theorem getLast_opt_of_ne_nil {α : Type} (l : List α) (h : l ≠ []) :
    ∃ a, l.getLast? = some a := by
  rw [List.getLast?_eq_getLast l h]
  exact ⟨l.getLast h, rfl⟩

theorem sortKeysAsc_ne_nil (vm : VariantsMap) (h : vm ≠ []) : sortKeysAsc vm ≠ [] := by
  intro he
  have hp := List.perm_insertionSort (fun a b => a ≤ b) (keysOf vm)
  rw [sortKeysAsc] at he
  rw [he] at hp
  have : keysOf vm = [] := hp.symm.eq_nil
  have : vm = [] := by
    cases vm with
    | nil => rfl
    | cons p rest => simp [keysOf] at this
  exact h this

theorem mem_keys_of_getLast_sort (vm : VariantsMap) (a : Nat)
    (h : (sortKeysAsc vm).getLast? = some a) : a ∈ keysOf vm := by
  have hm := mem_of_getLast_opt _ _ h
  have hp := List.perm_insertionSort (fun a b => a ≤ b) (keysOf vm)
  exact hp.mem_iff.mp hm

theorem lookupW_of_mem_keys (vm : VariantsMap) (w : Nat) (h : w ∈ keysOf vm) :
    ∃ we, lookupW vm w = some we := by
  induction vm with
  | nil => simp [keysOf] at h
  | cons p rest ih =>
      rcases p with ⟨k1, v1⟩
      by_cases hk : k1 = w
      · exact ⟨v1, by simp [lookupW, hk]⟩
      · have : w ∈ keysOf rest := by
          simp [keysOf] at h ⊢
          rcases h with h | h
          · exact absurd h.symm (by simpa using hk)
          · exact h
        rcases ih this with ⟨we, hwe⟩
        exact ⟨we, by simp [lookupW, hk, hwe]⟩

theorem maxKeys_mem (vm : VariantsMap) (h : vm ≠ []) : maxKeys vm ∈ keysOf vm := by
  induction vm with
  | nil => exact absurd rfl h
  | cons p rest ih =>
      rcases p with ⟨k1, v1⟩
      cases rest with
      | nil => simp [maxKeys, keysOf]
      | cons q rest2 =>
          have hmax : maxKeys ((k1, v1) :: q :: rest2) = max k1 (maxKeys (q :: rest2)) := by
            simp [maxKeys, keysOf]
          rcases Nat.le_total (maxKeys (q :: rest2)) k1 with hle | hle
          · rw [hmax, Nat.max_eq_left hle]
            simp [keysOf]
          · rw [hmax, Nat.max_eq_right hle]
            have := ih (by simp)
            simp [keysOf] at this ⊢
            tauto

/-- C7: cache load never fails the build - a present and valid file
yields its parsed document, while an absent or unparseable file yields a
fresh empty document (version 2.0, the given timestamp, no images)
instead of raising. -/
theorem loadImageCache_never_fails (doc : CacheDoc) (now : String) :
    loadImageCache (CacheFileState.valid doc) now = doc ∧
    loadImageCache CacheFileState.absent now = { version := "2.0", lastUpdated := now, images := [] } ∧
    loadImageCache CacheFileState.corrupt now = { version := "2.0", lastUpdated := now, images := [] } :=
  ⟨rfl, rfl, rfl⟩

/-- C10 counterexample: when the identify invocation succeeds but its
output does not parse as dimensions (stdout abc), getImageDimensions
returns NaN-valued fields - not width 0, height 0 as the claim states
for parse failures. -/
theorem getImageDimensions_nan_cex :
    getImageDimensions (Except.ok "abc") = { width := none, height := none } ∧
    getImageDimensions (Except.ok "abc") ≠ { width := some 0, height := some 0 } := by
  constructor
  · rfl
  · decide

/-- C10 (amended): getImageDimensions is total; whenever the identify
invocation itself fails it returns width 0, height 0 rather than raising
(an unparseable successful output instead yields NaN-valued fields,
also without raising). -/
theorem getImageDimensions_error_zero (e : JsError) :
    getImageDimensions (Except.error e) = { width := some 0, height := some 0 } := rfl

/-- C3: no upscaling - every width in the ladder generated for a source
of intrinsic width W is at most W, and when W is below every configured
target width the generated ladder is exactly the single width W. -/
theorem no_upscaling (W : Nat) :
    (∀ w ∈ widthsToGenerate W, w ≤ W) ∧
      ((∀ t ∈ TARGET_WIDTHS, W < t) → widthsToGenerate W = [W]) := by
  constructor
  · intro w hw
    simp only [widthsToGenerate] at hw
    split at hw
    · simp at hw
      omega
    · have := (List.mem_filter.mp hw).2
      simpa using this
  · intro h
    have hfil : TARGET_WIDTHS.filter (fun w => w ≤ W) = [] := by
      apply List.filter_eq_nil_iff.mpr
      intro t ht
      have := h t ht
      simp
      omega
    simp [widthsToGenerate, hfil]

/-- C3 witness: a 500-wide source is below every configured target, so
exactly its own width is generated. -/
theorem no_upscaling_witness : widthsToGenerate 500 = [500] :=
  (no_upscaling 500).2 (by decide)

theorem replaceImgLower_of_lowercase (m : String)
    (h : startsWithChars ("<img".data) m.data = true) : replaceImgLower m = m := by
  obtain ⟨l⟩ := m
  have h2 : startsWithChars ['<', 'i', 'm', 'g'] l = true := h
  rcases l with _ | ⟨c1, l1⟩
  · simp [startsWithChars] at h2
  rcases l1 with _ | ⟨c2, l2⟩
  · simp [startsWithChars] at h2
  rcases l2 with _ | ⟨c3, l3⟩
  · simp [startsWithChars] at h2
  rcases l3 with _ | ⟨c4, l4⟩
  · simp [startsWithChars] at h2
  simp only [startsWithChars, Bool.and_eq_true, decide_eq_true_eq] at h2
  obtain ⟨hc1, hc2, hc3, hc4, _⟩ := h2
  subst hc1
  subst hc2
  subst hc3
  subst hc4
  rfl

/-- C8 counterexample: with no cache entry, a matched img tag that spells
its opening tag in upper case and has no loading attribute is not
returned unchanged - the rewriter lowercases the opening img spelling. -/
theorem img_case_normalized_cex :
    replaceImgTag emptyCacheDoc "a" "<IMG src=y.jpg>" "y.jpg" "" = Except.ok "<img src=y.jpg>" ∧
    ("<img src=y.jpg>" : String) ≠ "<IMG src=y.jpg>" := by
  constructor
  · rfl
  · decide

/-- C8 (amended): an img reference whose filename has no cache entry, or
whose cache entry has no variants field, produces no picture markup and
raises no error: the rewriter returns the matched tag verbatim when the
tag carries a loading= attribute, and otherwise returns the tag with its
first case-insensitive opening img spelling lowercased - which is the
original tag unchanged whenever the tag already spells the opening img in
lowercase. -/
theorem unrendered_img_passthrough (cache : CacheDoc) (articleSlug m src altText : String)
    (h : (lookupKey cache.images (getImageCacheKey articleSlug
        (pathBasename ((splitOnChar '?' src).headD src)))).bind CacheEntry.variants = none) :
    replaceImgTag cache articleSlug m src altText =
      Except.ok (if hasLoadingAttr m then m else replaceImgLower m) ∧
    (hasLoadingAttr m = true → replaceImgTag cache articleSlug m src altText = Except.ok m) ∧
    (startsWithChars ("<img".data) m.data = true →
      replaceImgTag cache articleSlug m src altText = Except.ok m) := by
  have hmain : replaceImgTag cache articleSlug m src altText =
      Except.ok (if hasLoadingAttr m then m else replaceImgLower m) := by
    simp only [replaceImgTag]
    rcases hc : lookupKey cache.images (getImageCacheKey articleSlug
        (pathBasename ((splitOnChar '?' src).headD src))) with _ | c
    · rfl
    · rw [hc] at h
      have hv : c.variants = none := by simpa using h
      simp [hv]
  refine ⟨hmain, ?_, ?_⟩
  · intro hl
    rw [hmain, if_pos hl]
  · intro hs
    rw [hmain, replaceImgLower_of_lowercase m hs]
    split <;> rfl

/-- C8 witness: with an empty cache, a lowercase img tag without a
loading attribute comes back verbatim. -/
theorem unrendered_img_passthrough_witness :
    replaceImgTag emptyCacheDoc "a" "<img src=y.jpg>" "y.jpg" "" = Except.ok "<img src=y.jpg>" :=
  (unrendered_img_passthrough emptyCacheDoc "a" "<img src=y.jpg>" "y.jpg" "" rfl).2.2 rfl

/-- C4 counterexample: width 960 is present in the stored entry before the
put and absent from the new variant data; after the put the stored entry
no longer holds width 960.  updateImageCacheWithVariants replaces the
entry instead of merging the variants map key by key. -/
theorem put_drops_old_width_cex :
    (oldCacheEntryX.variants.bind (fun vm => lookupW vm 960)).isSome = true ∧
    ((lookupKey (updateImageCacheWithVariants "a" "x.jpg" ⟨3000, 2000⟩ newVariants1100 1100 2 "T1" oldCacheDocX).images
        (getImageCacheKey "a" "x.jpg")).bind CacheEntry.variants).bind (fun vm => lookupW vm 960) = none := by
  exact ⟨rfl, rfl⟩

/-- C4 (amended): the variant-cache put replaces the stored entry
wholesale - the entry at the key becomes exactly the new object literal,
so widths present only in the old entry are dropped rather than merged;
every other key is untouched, and the persisted document gets a fresh
lastUpdated stamp. -/
theorem put_replaces_entry (articleSlug imageFilename : String) (od : Dims)
    (vm : VariantsMap) (lw ls : Nat) (now : String) (cache : CacheDoc) :
    lookupKey (updateImageCacheWithVariants articleSlug imageFilename od vm lw ls now cache).images
        (getImageCacheKey articleSlug imageFilename) = some (putEntry od vm lw ls now) ∧
    (∀ k, k ≠ getImageCacheKey articleSlug imageFilename →
      lookupKey (updateImageCacheWithVariants articleSlug imageFilename od vm lw ls now cache).images k =
        lookupKey cache.images k) ∧
    (updateImageCacheWithVariants articleSlug imageFilename od vm lw ls now cache).lastUpdated = now := by
  refine ⟨?_, ?_, rfl⟩
  · exact lookupKey_setKey_self cache.images (getImageCacheKey articleSlug imageFilename) (putEntry od vm lw ls now)
  · intro k hk
    exact lookupKey_setKey_ne cache.images (getImageCacheKey articleSlug imageFilename) k (putEntry od vm lw ls now) hk

/-- C4 witness: the put on articles/a/x.jpg leaves the unrelated key
articles/b/other.jpg exactly as it was. -/
theorem put_replaces_entry_witness :
    lookupKey (updateImageCacheWithVariants "a" "x.jpg" ⟨3000, 2000⟩ newVariants1100 1100 2 "T1" oldCacheDocX).images
        "articles/b/other.jpg" = lookupKey oldCacheDocX.images "articles/b/other.jpg" :=
  (put_replaces_entry "a" "x.jpg" ⟨3000, 2000⟩ newVariants1100 1100 2 "T1" oldCacheDocX).2.1
    "articles/b/other.jpg" (by decide)

/-- C1 counterexample: on the cache entry for articles/a/photo.jpg whose
width 960 holds jpg and webp records but no avif record, a run without
force-overwrite performs zero conversion-adapter calls - in particular
the adapter is never invoked for the missing (960, avif) pair, because
the fast path treats any non-empty variants map as complete. -/
theorem healing_skipped_cex :
    (generateImageVariants envNoForce "raw_articles/a/photo.jpg" "build/articles/a" "a" "photo.jpg" partialCacheDoc).adapterCalls = [] ∧
    (960, ImgFormat.avif) ∉ (generateImageVariants envNoForce "raw_articles/a/photo.jpg" "build/articles/a" "a" "photo.jpg" partialCacheDoc).adapterCalls := by
  have h : (generateImageVariants envNoForce "raw_articles/a/photo.jpg" "build/articles/a" "a" "photo.jpg" partialCacheDoc).adapterCalls = [] := rfl
  exact ⟨h, by simp [h]⟩

theorem widthsToGenerate_ne_nil (W : Nat) : widthsToGenerate W ≠ [] := by
  simp only [widthsToGenerate]
  split
  · simp
  · rename_i h
    intro he
    rw [he] at h
    simp at h

theorem processWidth_all_needed (env : Env) (cached : Option CacheEntry) (baseName : String)
    (w : Nat)
    (hconv : ∀ f, env.convert w f = Except.ok ())
    (hJ : (env.forceOverwrite || (cachedJpg cached w).isNone) = true)
    (hW : (env.forceOverwrite || (cachedWebp cached w).isNone) = true)
    (hA : (env.forceOverwrite || (cachedAvif cached w).isNone) = true) :
    processWidth env cached baseName w =
      (Except.ok (genWidthEntry env cached baseName w),
       [(w, ImgFormat.jpg), (w, ImgFormat.webp), (w, ImgFormat.avif)], true) := by
  simp [processWidth, hJ, hW, hA, hconv ImgFormat.jpg, hconv ImgFormat.webp, hconv ImgFormat.avif]

theorem processWidths_all_needed (env : Env) (cached : Option CacheEntry) (baseName : String)
    (ws : List Nat)
    (hconv : ∀ w f, env.convert w f = Except.ok ())
    (hJ : ∀ w, (env.forceOverwrite || (cachedJpg cached w).isNone) = true)
    (hW : ∀ w, (env.forceOverwrite || (cachedWebp cached w).isNone) = true)
    (hA : ∀ w, (env.forceOverwrite || (cachedAvif cached w).isNone) = true) :
    processWidths env cached baseName ws =
      (Except.ok (genVariants env cached baseName ws), fullCalls ws, !ws.isEmpty) := by
  induction ws with
  | nil => rfl
  | cons w rest ih =>
      simp only [processWidths,
        processWidth_all_needed env cached baseName w (fun f => hconv w f) (hJ w) (hW w) (hA w),
        ih]
      simp [genVariants, fullCalls]

theorem keysOf_genVariants (env : Env) (cached : Option CacheEntry) (baseName : String)
    (ws : List Nat) : keysOf (genVariants env cached baseName ws) = ws := by
  simp only [keysOf, genVariants, List.map_map]
  have hid : (Prod.fst ∘ fun w => (w, genWidthEntry env cached baseName w)) = id :=
    funext (fun w => rfl)
  rw [hid, List.map_id]

theorem lookupW_genVariants_jpg (env : Env) (cached : Option CacheEntry) (baseName : String)
    (ws : List Nat) (w : Nat) (we : WidthEntry)
    (h : lookupW (genVariants env cached baseName ws) w = some we) : we.jpg.isSome := by
  induction ws with
  | nil => simp [genVariants, lookupW] at h
  | cons w1 rest ih =>
      by_cases hw : w1 = w
      · simp [genVariants, lookupW, hw] at h
        rw [← h]
        simp [genWidthEntry]
      · have h2 : lookupW (genVariants env cached baseName rest) w = some we := by
          simpa [genVariants, lookupW, hw] using h
        exact ih h2

theorem genTry_cacheAfter_cases (env : Env) (articleSlug imageFileName : String)
    (cache : CacheDoc) (cached : Option CacheEntry) :
    (genTry env articleSlug imageFileName cache cached).cacheAfter = cache ∨
    ∃ e, (genTry env articleSlug imageFileName cache cached).cacheAfter.images =
      setKey cache.images (getImageCacheKey articleSlug imageFileName) e := by
  simp only [genTry]
  repeat' split
  all_goals first
    | exact Or.inl rfl
    | exact Or.inr ⟨_, rfl⟩

theorem genVariants_cacheAfter_cases (env : Env) (sp dd articleSlug imageFileName : String)
    (cache : CacheDoc) :
    (generateImageVariants env sp dd articleSlug imageFileName cache).cacheAfter = cache ∨
    ∃ e, (generateImageVariants env sp dd articleSlug imageFileName cache).cacheAfter.images =
      setKey cache.images (getImageCacheKey articleSlug imageFileName) e := by
  simp only [generateImageVariants]
  split
  · exact genTry_cacheAfter_cases env articleSlug imageFileName cache _
  · split
    · exact Or.inl rfl
    · exact Or.inr ⟨_, rfl⟩

theorem genVariants_frame (env : Env) (sp dd articleSlug imageFileName : String)
    (cache : CacheDoc) (k : String)
    (hk : k ≠ getImageCacheKey articleSlug imageFileName) :
    lookupKey (generateImageVariants env sp dd articleSlug imageFileName cache).cacheAfter.images k =
      lookupKey cache.images k := by
  rcases genVariants_cacheAfter_cases env sp dd articleSlug imageFileName cache with h | ⟨e, h⟩
  · rw [h]
  · rw [h, lookupKey_setKey_ne _ _ _ _ hk]

theorem genVariants_calls_eq (env : Env) (sp dd articleSlug imageFileName : String)
    (cache : CacheDoc) :
    (generateImageVariants env sp dd articleSlug imageFileName cache).adapterCalls =
      (genTry env articleSlug imageFileName cache
        (lookupKey cache.images (getImageCacheKey articleSlug imageFileName))).adapterCalls ∧
    (generateImageVariants env sp dd articleSlug imageFileName cache).identifyCalls =
      (genTry env articleSlug imageFileName cache
        (lookupKey cache.images (getImageCacheKey articleSlug imageFileName))).identifyCalls := by
  simp only [generateImageVariants]
  constructor
  all_goals
    split
    · rfl
    · split <;> rfl

theorem fastpath_ok_outcome (env : Env) (sp dd articleSlug imageFileName : String)
    (cache : CacheDoc) (c : CacheEntry) (vm : VariantsMap) (lw : Nat) (we : WidthEntry) (j : JpgRec)
    (hforce : env.forceOverwrite = false)
    (hlook : lookupKey cache.images (getImageCacheKey articleSlug imageFileName) = some c)
    (hvar : c.variants = some vm)
    (hne : vm ≠ [])
    (hlast : (sortKeysAsc vm).getLast? = some lw)
    (hwe : lookupW vm lw = some we)
    (hjpg : we.jpg = some j) :
    generateImageVariants env sp dd articleSlug imageFileName cache =
      { result := Except.ok { variants := vm, largestWidth := lw, largestJpgFilename := j.filename },
        adapterCalls := [], identifyCalls := 0, copies := [], cacheAfter := cache, cacheSaves := 0 } := by
  have hnev : hasNonEmptyVariants (some c) = true := by
    simp only [hasNonEmptyVariants, hvar]
    simpa using List.length_pos.mpr hne
  have hfp : fastPathResult (some c) imageFileName =
      Except.ok { variants := vm, largestWidth := lw, largestJpgFilename := j.filename } := by
    simp [fastPathResult, hvar, hlast, hwe, hjpg]
  have hg : genTry env articleSlug imageFileName cache (some c) =
      { result := fastPathResult (some c) imageFileName, adapterCalls := [], identifyCalls := 0,
        cacheAfter := cache, cacheSaves := 0 } := by
    simp [genTry, hforce, hnev]
  simp [generateImageVariants, hlook, hg, hfp]

/-- C1 (amended): for every cache entry whose variants map is non-empty -
including entries where a width has the jpg record but is missing a
modern-lossy format record - a run of the variant generator without
force-overwrite performs zero adapter invocations (no identify, no
convert), writes nothing, and returns the cached metadata unchanged: the
fast path treats any non-empty variants map as complete, so the missing
(width, format) pair is never healed. -/
theorem fastpath_treats_nonempty_as_done (env : Env) (sp dd articleSlug imageFileName : String)
    (cache : CacheDoc) (c : CacheEntry) (vm : VariantsMap) (lw : Nat) (we : WidthEntry) (j : JpgRec)
    (hforce : env.forceOverwrite = false)
    (hlook : lookupKey cache.images (getImageCacheKey articleSlug imageFileName) = some c)
    (hvar : c.variants = some vm)
    (hne : vm ≠ [])
    (hlast : (sortKeysAsc vm).getLast? = some lw)
    (hwe : lookupW vm lw = some we)
    (hjpg : we.jpg = some j) :
    generateImageVariants env sp dd articleSlug imageFileName cache =
      { result := Except.ok ⟨vm, lw, j.filename⟩,
        adapterCalls := [], identifyCalls := 0, copies := [], cacheAfter := cache, cacheSaves := 0 } :=
  fastpath_ok_outcome env sp dd articleSlug imageFileName cache c vm lw we j
    hforce hlook hvar hne hlast hwe hjpg

/-- C1 witness: on the incomplete width-960 entry (jpg and webp present,
avif missing) the non-force run returns the cached data with zero
adapter calls and no cache write. -/
theorem fastpath_treats_nonempty_as_done_witness :
    generateImageVariants envNoForce "raw_articles/a/photo.jpg" "build/articles/a" "a" "photo.jpg" partialCacheDoc =
      { result := Except.ok ⟨[(960, partialWidth960)], 960, "photo-960.jpg"⟩,
        adapterCalls := [], identifyCalls := 0, copies := [], cacheAfter := partialCacheDoc, cacheSaves := 0 } :=
  fastpath_treats_nonempty_as_done envNoForce "raw_articles/a/photo.jpg" "build/articles/a" "a" "photo.jpg"
    partialCacheDoc partialCacheEntry [(960, partialWidth960)] 960 partialWidth960
    ⟨"photo-960.jpg", 100, 960, 640⟩ rfl rfl rfl (List.cons_ne_nil _ _) rfl rfl rfl

/-- C9: when a non-empty cached variants map lacks the jpg sub-record at
its largest width, the fast path s property access throws inside the try
block and the function degrades to the verbatim-copy fallback - returning
empty variants, the probed width and the original filename, copying the
source to the destination and recording the entry through the fallback
cache write - instead of returning the cached metadata. -/
theorem missing_jpg_fastpath_degrades (env : Env) (sp dd articleSlug imageFileName : String)
    (cache : CacheDoc) (c : CacheEntry) (vm : VariantsMap) (lw : Nat) (sz : Nat)
    (hforce : env.forceOverwrite = false)
    (hlook : lookupKey cache.images (getImageCacheKey articleSlug imageFileName) = some c)
    (hvar : c.variants = some vm)
    (hne : vm ≠ [])
    (hlast : (sortKeysAsc vm).getLast? = some lw)
    (hjpg : (lookupW vm lw).bind WidthEntry.jpg = none)
    (hstat : env.statFallback = some sz) :
    generateImageVariants env sp dd articleSlug imageFileName cache =
      { result := Except.ok ⟨[], env.probeFallback.width, imageFileName⟩,
        adapterCalls := [], identifyCalls := 0, copies := [dd ++ "/" ++ imageFileName],
        cacheAfter := updateImageCache articleSlug imageFileName env.probeFallback sz env.now cache,
        cacheSaves := 1 } := by
  have hnev : hasNonEmptyVariants (some c) = true := by
    simp only [hasNonEmptyVariants, hvar]
    simpa using List.length_pos.mpr hne
  have hfp : fastPathResult (some c) imageFileName = Except.error "TypeError" := by
    simp [fastPathResult, hvar, hlast, hjpg]
  have hg : genTry env articleSlug imageFileName cache (some c) =
      { result := fastPathResult (some c) imageFileName, adapterCalls := [], identifyCalls := 0,
        cacheAfter := cache, cacheSaves := 0 } := by
    simp [genTry, hforce, hnev]
  simp [generateImageVariants, hlook, hg, hfp, hstat]

/-- C9 witness: on the entry whose largest width 1100 has only a webp
record, the run copies the original verbatim and returns empty variants
rather than the cached metadata. -/
theorem missing_jpg_fastpath_degrades_witness :
    generateImageVariants envNoForce "raw_articles/a/p.jpg" "build/articles/a" "a" "p.jpg" noJpgCacheDoc =
      { result := Except.ok ⟨[], 0, "p.jpg"⟩,
        adapterCalls := [], identifyCalls := 0, copies := ["build/articles/a" ++ "/" ++ "p.jpg"],
        cacheAfter := updateImageCache "a" "p.jpg" ⟨0, 0⟩ 50 "T1" noJpgCacheDoc,
        cacheSaves := 1 } :=
  missing_jpg_fastpath_degrades envNoForce "raw_articles/a/p.jpg" "build/articles/a" "a" "p.jpg"
    noJpgCacheDoc noJpgCacheEntry [(960, mixedWidth960), (1100, mixedWidth1100)] 1100 50
    rfl rfl rfl (List.cons_ne_nil _ _) rfl rfl rfl

/-- C5: when the conversion adapter raises on every call for a fresh
image (identify rejects, every convert would reject), the generator still
emits a usable output - the verbatim copy of the source at the
destination - records a minimal cache entry with processed true and no
variants field, returns the contract shape with empty variants, the
probed width (0, since the probe also fails) and the original filename,
and the error is not fatal (the function returns normally). -/
theorem adapter_failure_fallback (env : Env) (sp dd articleSlug imageFileName : String)
    (cache : CacheDoc) (e : JsError) (sz : Nat)
    (hid : env.identify = Except.error e)
    (hconv : ∀ w f, ∃ msg, env.convert w f = Except.error msg)
    (hfresh : lookupKey cache.images (getImageCacheKey articleSlug imageFileName) = none)
    (hstat : env.statFallback = some sz)
    (hprobe : env.probeFallback = ⟨0, 0⟩) :
    generateImageVariants env sp dd articleSlug imageFileName cache =
      { result := Except.ok ⟨[], 0, imageFileName⟩,
        adapterCalls := [], identifyCalls := 1, copies := [dd ++ "/" ++ imageFileName],
        cacheAfter := updateImageCache articleSlug imageFileName ⟨0, 0⟩ sz env.now cache,
        cacheSaves := 1 } ∧
    lookupKey (generateImageVariants env sp dd articleSlug imageFileName cache).cacheAfter.images
        (getImageCacheKey articleSlug imageFileName) =
      some (fallbackEntry {} ⟨0, 0⟩ sz env.now) := by
  have hg : genTry env articleSlug imageFileName cache none =
      { result := Except.error e, adapterCalls := [], identifyCalls := 1,
        cacheAfter := cache, cacheSaves := 0 } := by
    simp [genTry, hid, hasNonEmptyVariants]
  have hmain : generateImageVariants env sp dd articleSlug imageFileName cache =
      { result := Except.ok ⟨[], 0, imageFileName⟩,
        adapterCalls := [], identifyCalls := 1, copies := [dd ++ "/" ++ imageFileName],
        cacheAfter := updateImageCache articleSlug imageFileName ⟨0, 0⟩ sz env.now cache,
        cacheSaves := 1 } := by
    simp [generateImageVariants, hfresh, hg, hstat, hprobe]
  refine ⟨hmain, ?_⟩
  rw [hmain]
  simp only [updateImageCache, saveImageCache, hfresh, Option.getD_none]
  exact lookupKey_setKey_self _ _ _

/-- C5 witness: with the always-raising adapter on a fresh image, the
outcome is the verbatim copy, the minimal cache record and the normal
return. -/
theorem adapter_failure_fallback_witness :
    generateImageVariants envAllFail "raw_articles/a/photo.jpg" "build/articles/a" "a" "photo.jpg" emptyCacheDoc =
      { result := Except.ok ⟨[], 0, "photo.jpg"⟩,
        adapterCalls := [], identifyCalls := 1, copies := ["build/articles/a" ++ "/" ++ "photo.jpg"],
        cacheAfter := updateImageCache "a" "photo.jpg" ⟨0, 0⟩ 50 "T1" emptyCacheDoc,
        cacheSaves := 1 } :=
  (adapter_failure_fallback envAllFail "raw_articles/a/photo.jpg" "build/articles/a" "a" "photo.jpg"
    emptyCacheDoc "spawn identify ENOENT" 50 rfl
    (fun _ _ => ⟨"spawn convert ENOENT", rfl⟩) rfl rfl rfl).1

theorem fastpath_good_entry (env : Env) (sp dd articleSlug imageFileName : String)
    (cache : CacheDoc) (c : CacheEntry)
    (hforce : env.forceOverwrite = false)
    (hlook : lookupKey cache.images (getImageCacheKey articleSlug imageFileName) = some c)
    (hgood : goodEntry c) :
    (generateImageVariants env sp dd articleSlug imageFileName cache).cacheAfter = cache ∧
    (generateImageVariants env sp dd articleSlug imageFileName cache).adapterCalls = [] ∧
    (generateImageVariants env sp dd articleSlug imageFileName cache).identifyCalls = 0 ∧
    (generateImageVariants env sp dd articleSlug imageFileName cache).copies = [] ∧
    (generateImageVariants env sp dd articleSlug imageFileName cache).cacheSaves = 0 ∧
    ∃ r, (generateImageVariants env sp dd articleSlug imageFileName cache).result = Except.ok r := by
  obtain ⟨vm, hvar, hne, hjall⟩ := hgood
  obtain ⟨lw, hlast⟩ := getLast_opt_of_ne_nil _ (sortKeysAsc_ne_nil vm hne)
  have hmem := mem_keys_of_getLast_sort vm lw hlast
  obtain ⟨we, hwe⟩ := lookupW_of_mem_keys vm lw hmem
  obtain ⟨j, hj⟩ := Option.isSome_iff_exists.mp (hjall lw we hwe)
  have h := fastpath_ok_outcome env sp dd articleSlug imageFileName cache c vm lw we j
    hforce hlook hvar hne hlast hwe hj
  rw [h]
  exact ⟨rfl, rfl, rfl, rfl, rfl, ⟨_, rfl⟩⟩

theorem freshrun_outcome (env : Env) (sp dd articleSlug imageFileName : String)
    (cache : CacheDoc) (d : Dims)
    (hforce : env.forceOverwrite = false)
    (hid : env.identify = Except.ok d)
    (hconv : ∀ w f, env.convert w f = Except.ok ())
    (hfresh : lookupKey cache.images (getImageCacheKey articleSlug imageFileName) = none) :
    ∃ cEnt, lookupKey (generateImageVariants env sp dd articleSlug imageFileName cache).cacheAfter.images
        (getImageCacheKey articleSlug imageFileName) = some cEnt ∧ goodEntry cEnt := by
  have hpw := processWidths_all_needed env none (baseNameOf imageFileName) (widthsToGenerate d.width)
    hconv (fun w => by simp [cachedJpg, cachedWidthEntry])
    (fun w => by simp [cachedWebp, cachedWidthEntry])
    (fun w => by simp [cachedAvif, cachedWidthEntry])
  have hws : (widthsToGenerate d.width).isEmpty = false := by
    cases hh : (widthsToGenerate d.width).isEmpty
    · rfl
    · exact absurd (by simpa using hh) (widthsToGenerate_ne_nil d.width)
  have hvmne : genVariants env none (baseNameOf imageFileName) (widthsToGenerate d.width) ≠ [] := by
    intro h
    have hk := keysOf_genVariants env none (baseNameOf imageFileName) (widthsToGenerate d.width)
    rw [h] at hk
    exact widthsToGenerate_ne_nil d.width (by simpa [keysOf] using hk.symm)
  have hmk : maxKeys (genVariants env none (baseNameOf imageFileName) (widthsToGenerate d.width)) ∈
      keysOf (genVariants env none (baseNameOf imageFileName) (widthsToGenerate d.width)) :=
    maxKeys_mem _ hvmne
  obtain ⟨we, hwe⟩ := lookupW_of_mem_keys _ _ hmk
  obtain ⟨j, hj⟩ := Option.isSome_iff_exists.mp
    (lookupW_genVariants_jpg env none (baseNameOf imageFileName) (widthsToGenerate d.width) _ we hwe)
  have hg : genTry env articleSlug imageFileName cache none =
      { result := Except.ok ⟨genVariants env none (baseNameOf imageFileName) (widthsToGenerate d.width),
          maxKeys (genVariants env none (baseNameOf imageFileName) (widthsToGenerate d.width)), j.filename⟩,
        adapterCalls := fullCalls (widthsToGenerate d.width), identifyCalls := 1,
        cacheAfter := updateImageCacheWithVariants articleSlug imageFileName d
          (genVariants env none (baseNameOf imageFileName) (widthsToGenerate d.width))
          (maxKeys (genVariants env none (baseNameOf imageFileName) (widthsToGenerate d.width)))
          j.size env.now cache,
        cacheSaves := 1 } := by
    simp [genTry, hforce, hid, hasNonEmptyVariants, cachedComplete, hpw, hws, hwe, hj]
  have hout : (generateImageVariants env sp dd articleSlug imageFileName cache).cacheAfter =
      updateImageCacheWithVariants articleSlug imageFileName d
        (genVariants env none (baseNameOf imageFileName) (widthsToGenerate d.width))
        (maxKeys (genVariants env none (baseNameOf imageFileName) (widthsToGenerate d.width)))
        j.size env.now cache := by
    simp [generateImageVariants, hfresh, hg]
  refine ⟨putEntry d (genVariants env none (baseNameOf imageFileName) (widthsToGenerate d.width))
      (maxKeys (genVariants env none (baseNameOf imageFileName) (widthsToGenerate d.width)))
      j.size env.now, ?_, ?_⟩
  · rw [hout]
    simp only [updateImageCacheWithVariants, saveImageCache]
    exact lookupKey_setKey_self _ _ _
  · exact ⟨_, rfl, hvmne, fun w we2 hlk =>
      lookupW_genVariants_jpg env none (baseNameOf imageFileName) (widthsToGenerate d.width) w we2 hlk⟩

theorem runPipeline_frame (useSnd : Bool) (jobs : List ImageJob) (cache : CacheDoc) (k : String)
    (hk : ∀ j ∈ jobs, k ≠ jobKey j) :
    lookupKey (runPipeline useSnd jobs cache).2.images k = lookupKey cache.images k := by
  induction jobs generalizing cache with
  | nil => rfl
  | cons j rest ih =>
      have hstep := genVariants_frame (if useSnd then j.env2 else j.env1)
        j.sourcePath j.destDir j.slug j.fileName cache k (hk j (by simp))
      have hrest := ih
        ((generateImageVariants (if useSnd then j.env2 else j.env1)
          j.sourcePath j.destDir j.slug j.fileName cache).cacheAfter)
        (fun j2 hj2 => hk j2 (by simp [hj2]))
      calc lookupKey (runPipeline useSnd (j :: rest) cache).2.images k
          = lookupKey (runPipeline useSnd rest
              (generateImageVariants (if useSnd then j.env2 else j.env1)
                j.sourcePath j.destDir j.slug j.fileName cache).cacheAfter).2.images k := rfl
        _ = lookupKey (generateImageVariants (if useSnd then j.env2 else j.env1)
              j.sourcePath j.destDir j.slug j.fileName cache).cacheAfter.images k := hrest
        _ = lookupKey cache.images k := hstep

theorem runPipeline_first_good (jobs : List ImageJob) (cache : CacheDoc)
    (hdist : jobs.Pairwise (fun a b => jobKey a ≠ jobKey b))
    (hfresh : ∀ j ∈ jobs, lookupKey cache.images (jobKey j) = none)
    (henv1 : ∀ j ∈ jobs, j.env1.forceOverwrite = false ∧
      (∃ d, j.env1.identify = Except.ok d) ∧ (∀ w f, j.env1.convert w f = Except.ok ())) :
    ∀ j ∈ jobs, ∃ cEnt,
      lookupKey (runPipeline false jobs cache).2.images (jobKey j) = some cEnt ∧ goodEntry cEnt := by
  induction jobs generalizing cache with
  | nil => intro j hj; simp at hj
  | cons j rest ih =>
      obtain ⟨hj1, hrest1⟩ := List.pairwise_cons.mp hdist
      obtain ⟨hjforce, ⟨d, hjid⟩, hjconv⟩ := henv1 j (by simp)
      have hjfresh := hfresh j (by simp)
      obtain ⟨cEnt, hlook, hgood⟩ := freshrun_outcome j.env1 j.sourcePath j.destDir j.slug j.fileName
        cache d hjforce hjid hjconv hjfresh
      intro j2 hj2
      rcases List.mem_cons.mp hj2 with he | hm
      · subst he
        refine ⟨cEnt, ?_, hgood⟩
        calc lookupKey (runPipeline false (j2 :: rest) cache).2.images (jobKey j2)
            = lookupKey (runPipeline false rest
                (generateImageVariants j2.env1 j2.sourcePath j2.destDir j2.slug j2.fileName
                  cache).cacheAfter).2.images (jobKey j2) := rfl
          _ = lookupKey (generateImageVariants j2.env1 j2.sourcePath j2.destDir j2.slug j2.fileName
                cache).cacheAfter.images (jobKey j2) :=
              runPipeline_frame false rest _ (jobKey j2) (fun b hb => hj1 b hb)
          _ = some cEnt := hlook
      · have hfresh2 : ∀ j3 ∈ rest,
            lookupKey (generateImageVariants j.env1 j.sourcePath j.destDir j.slug j.fileName
              cache).cacheAfter.images (jobKey j3) = none := by
          intro j3 hj3
          rw [genVariants_frame j.env1 j.sourcePath j.destDir j.slug j.fileName cache (jobKey j3)
            (fun he => hj1 j3 hj3 he.symm)]
          exact hfresh j3 (by simp [hj3])
        have := ih ((generateImageVariants j.env1 j.sourcePath j.destDir j.slug j.fileName
            cache).cacheAfter) hrest1 hfresh2
          (fun j3 hj3 => henv1 j3 (by simp [hj3]))
        exact this j2 hm

theorem runPipeline_second_noop (jobs : List ImageJob) (cache : CacheDoc)
    (henv2 : ∀ j ∈ jobs, j.env2.forceOverwrite = false)
    (hgood : ∀ j ∈ jobs, ∃ cEnt, lookupKey cache.images (jobKey j) = some cEnt ∧ goodEntry cEnt) :
    (runPipeline true jobs cache).2 = cache ∧
    ∀ o ∈ (runPipeline true jobs cache).1,
      o.adapterCalls = [] ∧ o.identifyCalls = 0 ∧ o.copies = [] ∧ o.cacheSaves = 0 ∧
      ∃ r, o.result = Except.ok r := by
  induction jobs generalizing cache with
  | nil => exact ⟨rfl, by intro o ho; simp [runPipeline] at ho⟩
  | cons j rest ih =>
      obtain ⟨c, hlook, hgc⟩ := hgood j (by simp)
      have hfp := fastpath_good_entry j.env2 j.sourcePath j.destDir j.slug j.fileName cache c
        (henv2 j (by simp)) hlook hgc
      have hrec := ih ((generateImageVariants j.env2 j.sourcePath j.destDir j.slug j.fileName
          cache).cacheAfter)
        (fun j2 hj2 => henv2 j2 (by simp [hj2]))
        (by rw [hfp.1]; exact fun j2 hj2 => hgood j2 (by simp [hj2]))
      constructor
      · calc (runPipeline true (j :: rest) cache).2
            = (runPipeline true rest
                (generateImageVariants j.env2 j.sourcePath j.destDir j.slug j.fileName
                  cache).cacheAfter).2 := rfl
          _ = (generateImageVariants j.env2 j.sourcePath j.destDir j.slug j.fileName
                cache).cacheAfter := hrec.1
          _ = cache := hfp.1
      · intro o ho
        have ho2 : o = generateImageVariants j.env2 j.sourcePath j.destDir j.slug j.fileName cache ∨
            o ∈ (runPipeline true rest
              (generateImageVariants j.env2 j.sourcePath j.destDir j.slug j.fileName
                cache).cacheAfter).1 := by
          simpa [runPipeline] using ho
        rcases ho2 with he | hm
        · subst he
          exact ⟨hfp.2.1, hfp.2.2.1, hfp.2.2.2.1, hfp.2.2.2.2.1, hfp.2.2.2.2.2⟩
        · exact hrec.2 o hm

/-- C6: force-overwrite - with the flag set, and a healthy adapter, the
convert adapter is invoked for every applicable (width, format) pair of
the configured ladder, for any cache document whatsoever (in particular
one reporting a complete variant set): all fast paths and per-pair skip
checks are disabled. -/
theorem force_regenerates_all (env : Env) (sp dd articleSlug imageFileName : String)
    (cache : CacheDoc) (d : Dims)
    (hforce : env.forceOverwrite = true)
    (hid : env.identify = Except.ok d)
    (hconv : ∀ w f, env.convert w f = Except.ok ()) :
    (generateImageVariants env sp dd articleSlug imageFileName cache).adapterCalls =
      fullCalls (widthsToGenerate d.width) ∧
    (generateImageVariants env sp dd articleSlug imageFileName cache).identifyCalls = 1 := by
  have hpw := processWidths_all_needed env
    (lookupKey cache.images (getImageCacheKey articleSlug imageFileName))
    (baseNameOf imageFileName) (widthsToGenerate d.width) hconv
    (fun w => by simp [hforce]) (fun w => by simp [hforce]) (fun w => by simp [hforce])
  have hws : (widthsToGenerate d.width).isEmpty = false := by
    cases hh : (widthsToGenerate d.width).isEmpty
    · rfl
    · exact absurd (by simpa using hh) (widthsToGenerate_ne_nil d.width)
  obtain ⟨hA, hI⟩ := genVariants_calls_eq env sp dd articleSlug imageFileName cache
  constructor
  · rw [hA]
    simp [genTry, hforce, hid, hpw, hws]
    all_goals split <;> rfl
  · rw [hI]
    simp [genTry, hforce, hid, hpw, hws]
    all_goals split <;> rfl

/-- C6 witness: with force set and a complete cache entry for
articles/a/pic.jpg, every pair of the ladder for a 3000-wide source is
regenerated. -/
theorem force_regenerates_all_witness :
    (generateImageVariants envForce "raw_articles/a/pic.jpg" "build/articles/a" "a" "pic.jpg"
      completeCacheDoc).adapterCalls = fullCalls (widthsToGenerate 3000) :=
  (force_regenerates_all envForce "raw_articles/a/pic.jpg" "build/articles/a" "a" "pic.jpg"
    completeCacheDoc ⟨3000, 2000⟩ rfl rfl (fun _ _ => rfl)).1

/-- C2: idempotence - after a fully successful first build run over a
source tree of images with pairwise-distinct cache keys and no prior
cache entries, a second run without force-overwrite performs zero
conversion-adapter invocations (no identify, no convert), writes no
files (no conversions, no verbatim copies, hence byte-identical derived
files), never persists the cache document, and leaves the in-memory
cache document exactly equal to the one the first run produced. -/
theorem second_run_idempotent (jobs : List ImageJob) (cache : CacheDoc)
    (hdist : jobs.Pairwise (fun a b => jobKey a ≠ jobKey b))
    (hfresh : ∀ j ∈ jobs, lookupKey cache.images (jobKey j) = none)
    (henv1 : ∀ j ∈ jobs, j.env1.forceOverwrite = false ∧
      (∃ d, j.env1.identify = Except.ok d) ∧ (∀ w f, j.env1.convert w f = Except.ok ()))
    (henv2 : ∀ j ∈ jobs, j.env2.forceOverwrite = false) :
    (runPipeline true jobs (runPipeline false jobs cache).2).2 = (runPipeline false jobs cache).2 ∧
    ∀ o ∈ (runPipeline true jobs (runPipeline false jobs cache).2).1,
      o.adapterCalls = [] ∧ o.identifyCalls = 0 ∧ o.copies = [] ∧ o.cacheSaves = 0 ∧
      ∃ r, o.result = Except.ok r := by
  have hgood := runPipeline_first_good jobs cache hdist hfresh henv1
  exact runPipeline_second_noop jobs (runPipeline false jobs cache).2 henv2 hgood

/-- C2 witness: a one-image tree built twice - the second run leaves the
cache document exactly as the first run left it. -/
theorem second_run_idempotent_witness :
    (runPipeline true [jobA] (runPipeline false [jobA] emptyCacheDoc).2).2 =
      (runPipeline false [jobA] emptyCacheDoc).2 :=
  (second_run_idempotent [jobA] emptyCacheDoc
    (by simp)
    (by intro j hj; simp at hj; subst hj; rfl)
    (by intro j hj; simp at hj; subst hj; exact ⟨rfl, ⟨⟨3000, 2000⟩, rfl⟩, fun _ _ => rfl⟩)
    (by intro j hj; simp at hj; subst hj; rfl)).1
